import Mathlib

set_option maxRecDepth 100000

/-!
A shallow embedding of the reconciliation core of the minio-operator
repository (Go).  The embedding models, faithfully to the source:

* internal/controller/common.go — the lazily initialized MinIO client
  provider (getClient, getAdminClient, initializeEnvs), including the
  Go shadowing of the package-level cache variables by the short
  variable declarations inside the getters;
* the Bucket reconciler (MakeBucket / quota / finalizer-gated deletion
  with the object drain loop driven by MINIO_EMPTY_BUCKET_ON_DELETE);
* the Policy reconciler (AddCannedPolicy, canonical write-back of
  Spec.Content, equivalentPolicies drift check, deletion);
* the User reconciler (SetUser, policy attach/detach diff via
  arrayDifference, deletion that only requeues on failure).

Remote calls are modelled as oracles: each reconcile step receives the
responses the remote service would give for the calls that step
performs.  Kubernetes record reads/writes are modelled as pure record
updates (write failures are out of scope of every claim considered).

Go's encoding/json compaction is modelled as removal of whitespace
outside string literals (an unterminated string literal is an error);
the full grammar validation that encoding/json additionally performs is
elided, so the model agrees with the source on every input that is
valid JSON.  json.Marshal of a json.RawMessage additionally escapes the
characters <, >, & and U+2028/U+2029, which the model reproduces.
-/

namespace MinioOperator

/-- Whether the pattern is a prefix of the character list (Go
strings.HasPrefix on the decoded runes). -/
def hasPrefixL : List Char → List Char → Bool
  | [], _ => true
  | _ :: _, [] => false
  | p :: ps, c :: cs => decide (p = c) && hasPrefixL ps cs

/-- Whether the pattern occurs as a contiguous substring of the
character list. -/
def hasSubstrL (pat : List Char) : List Char → Bool
  | [] => hasPrefixL pat []
  | c :: cs => hasPrefixL pat (c :: cs) || hasSubstrL pat cs

/-- Model of Go strings.Contains. -/
def strContains (s pat : String) : Bool :=
  hasSubstrL pat.data s.data

/-- Model of Go strconv.ParseBool: accepts 1, t, T, TRUE, true, True,
0, f, F, FALSE, false, False. -/
def parseBool (s : String) : Option Bool :=
  if s == "1" || s == "t" || s == "T" || s == "TRUE" || s == "true" || s == "True" then
    some true
  else if s == "0" || s == "f" || s == "F" || s == "FALSE" || s == "false" || s == "False" then
    some false
  else
    none

/-- Helper for splitComma: accumulates the current field (reversed). -/
def splitCommaAux : List Char → List Char → List String
  | [], acc => [⟨acc.reverse⟩]
  | c :: cs, acc =>
    if c = ',' then ⟨acc.reverse⟩ :: splitCommaAux cs []
    else splitCommaAux cs (c :: acc)

/-- Model of Go strings.Split(s, ",").  On the empty string it returns
a single empty field, exactly as Go does. -/
def splitComma (s : String) : List String :=
  splitCommaAux s.data []

/-- Process environment: association list from variable name to value.
Model of os.LookupEnv. -/
def lookupEnv (env : List (String × String)) (k : String) : Option String :=
  (env.find? (fun p => p.1 == k)).map (·.2)

/-! ## JSON compaction (encoding/json model) -/

/-- JSON insignificant whitespace recognized by encoding/json. -/
def isJsonWS (c : Char) : Bool :=
  c = ' ' || c = '\t' || c = '\n' || c = '\r'

/-- Scanner mode for the compaction pass: at top level, inside a string
literal, or right after a backslash inside a string literal. -/
inductive ScanMode where
  | top
  | inStr
  | esc
deriving DecidableEq

/-- One-pass whitespace stripper: drops JSON whitespace outside string
literals, copies everything else; fails (like json.Compact) on an
unterminated string literal. -/
def compactLoop : List Char → ScanMode → Option (List Char)
  | [], .top => some []
  | [], .inStr => none
  | [], .esc => none
  | c :: cs, .top =>
    if isJsonWS c then compactLoop cs .top
    else if c = '"' then (compactLoop cs .inStr).map (c :: ·)
    else (compactLoop cs .top).map (c :: ·)
  | c :: cs, .inStr =>
    if c = '\\' then (compactLoop cs .esc).map (c :: ·)
    else if c = '"' then (compactLoop cs .top).map (c :: ·)
    else (compactLoop cs .inStr).map (c :: ·)
  | c :: cs, .esc => (compactLoop cs .inStr).map (c :: ·)

/-- Model of Go json.Compact: strip insignificant whitespace.  Exact on
valid JSON input (grammar validation elided, see file header). -/
def jsonCompact (s : String) : Option String :=
  (compactLoop s.data .top).map (fun l => ⟨l⟩)

/-- The HTML-safe escaping json.Marshal applies to its output. -/
def htmlEscapeChar (c : Char) : List Char :=
  if c = '<' then "\\u003c".data
  else if c = '>' then "\\u003e".data
  else if c = '&' then "\\u0026".data
  else if c = Char.ofNat 0x2028 then "\\u2028".data
  else if c = Char.ofNat 0x2029 then "\\u2029".data
  else [c]

/-- Apply the json.Marshal HTML escaping to a whole string. -/
def htmlEscape (s : String) : String :=
  ⟨s.data.flatMap htmlEscapeChar⟩

/-- Model of Go json.Marshal applied to a json.RawMessage: compact the
raw bytes and HTML-escape the output. -/
def marshalRawMessage (s : String) : Option String :=
  (jsonCompact s).map htmlEscape

/-- From the policy controller source: compare the remote stored policy
(a json.RawMessage, re-marshalled, i.e. compacted and HTML-escaped)
with the Spec.Content string (compacted) byte for byte. -/
def equivalentPolicies (currentPolicy : String) (newPolicy : String) :
    Except String Bool :=
  match marshalRawMessage currentPolicy with
  | none => .error "invalid current policy"
  | some currentPolicyMarshalled =>
    match jsonCompact newPolicy with
    | none => .error "invalid new policy"
    | some newPolicyCompacted =>
      .ok (newPolicyCompacted == currentPolicyMarshalled)

/-! ## Status constants and shared record model -/

def typeCreating : String := "Creating"
def typeReady : String := "Ready"
def typeUpdating : String := "Updating"
def typeDegraded : String := "Degraded"
def typeError : String := "Error"

def bucketFinalizer : String := "minio.scc-digitalhub.github.io/bucket-finalizer"
def policyFinalizer : String := "minio.scc-digitalhub.github.io/policy-finalizer"
def userFinalizer : String := "minio.scc-digitalhub.github.io/user-finalizer"

def envEmptyBucketOnDelete : String := "MINIO_EMPTY_BUCKET_ON_DELETE"
def envEndpoint : String := "MINIO_ENDPOINT"
def envAccessKeyID : String := "MINIO_ACCESS_KEY_ID"
def envSecretAccessKey : String := "MINIO_SECRET_ACCESS_KEY"
def envUseSSL : String := "MINIO_USE_SSL"

/-- Status subresource shared by the three kinds. -/
structure ResourceStatus where
  state : String
  message : String
deriving DecidableEq

/-- Dispatcher result of a reconcile invocation (ctrl.Result). -/
structure CtrlResult where
  requeue : Bool
deriving DecidableEq

/-- A record whose finalizer set is empty may be erased by the external
machinery; a non-empty finalizer set blocks erasure. -/
def erasable (finalizers : List String) : Bool :=
  finalizers.isEmpty

/-- From the user controller source: arrayDifference(a, b) returns the
elements of b missing from a and the elements of a additional to b,
skipping empty strings, preserving order and multiplicity. -/
def arrayDifference (a : List String) (b : List String) :
    List String × List String :=
  let missing := b.filter (fun element => !(a.contains element) && element != "")
  let additional := a.filter (fun element => !(b.contains element) && element != "")
  (missing, additional)

/-- controllerutil.AddFinalizer: append the token unless present. -/
def addFinalizer (fin : String) (l : List String) : List String :=
  if l.contains fin then l else l ++ [fin]

/-- controllerutil.RemoveFinalizer: drop every occurrence of the token. -/
def removeFinalizer (fin : String) (l : List String) : List String :=
  l.filter (fun x => x != fin)

/-- The audit event the three finalizer-ops helpers emit on successful
remote cleanup (fmt.Sprintf in the source). -/
def deletingEvent (name nspace : String) : String :=
  "Custom Resource " ++ name ++ " is being deleted from the namespace " ++ nspace

/-! ## Client provider (internal/controller/common.go) -/

/-- The value minio.New / madmin.New constructs from the configuration
it is handed. -/
structure MinioClient where
  endpoint : String
  accessKey : String
  secretKey : String
  secure : Bool
deriving DecidableEq

/-- The package-level variables of internal/controller/common.go. -/
structure ClientGlobals where
  minioEndpoint : String
  accessKeyID : String
  secretAccessKey : String
  useSSL : Bool
  minioClient : Option MinioClient
  minioAdminClient : Option MinioClient
deriving DecidableEq

/-- Go zero values of the package-level variables at process start. -/
def initialGlobals : ClientGlobals :=
  ⟨"", "", "", false, none, none⟩

/-- Tail of initializeEnvs: the MINIO_USE_SSL lookup, performed on
every call (not cached). -/
def initializeEnvsSSL (env : List (String × String)) (g : ClientGlobals) :
    ClientGlobals × Option String :=
  match lookupEnv env envUseSSL with
  | none => (g, none)
  | some s =>
    match parseBool s with
    | none => (g, some (envUseSSL ++ " must be either true or false"))
    | some b => ({ g with useSSL := b }, none)

/-- initializeEnvs after the endpoint and access key are available: the
MINIO_SECRET_ACCESS_KEY step. -/
def initializeEnvsSecret (env : List (String × String)) (g : ClientGlobals) :
    ClientGlobals × Option String :=
  if g.secretAccessKey == "" then
    match lookupEnv env envSecretAccessKey with
    | none => (g, some (envSecretAccessKey ++ " must be set"))
    | some v => initializeEnvsSSL env { g with secretAccessKey := v }
  else initializeEnvsSSL env g

/-- initializeEnvs after the endpoint is available: the
MINIO_ACCESS_KEY_ID step. -/
def initializeEnvsAccess (env : List (String × String)) (g : ClientGlobals) :
    ClientGlobals × Option String :=
  if g.accessKeyID == "" then
    match lookupEnv env envAccessKeyID with
    | none => (g, some (envAccessKeyID ++ " must be set"))
    | some v => initializeEnvsSecret env { g with accessKeyID := v }
  else initializeEnvsSecret env g

/-- initializeEnvs from the source: fill each empty cached value from
the environment, failing on the first required variable that is unset;
the optional MINIO_USE_SSL is re-read on every call.  Returns the
updated globals together with the error, mirroring the partial
mutation the Go early returns leave behind. -/
def initializeEnvs (env : List (String × String)) (g : ClientGlobals) :
    ClientGlobals × Option String :=
  if g.minioEndpoint == "" then
    match lookupEnv env envEndpoint with
    | none => (g, some (envEndpoint ++ " must be set"))
    | some v => initializeEnvsAccess env { g with minioEndpoint := v }
  else initializeEnvsAccess env g

/-- Result of one call to getClient / getAdminClient: the returned
value, the package-level variables afterwards, and whether a client
construction (minio.New / madmin.New) was performed by this call. -/
structure ProviderResult where
  client : Except String MinioClient
  globals : ClientGlobals
  constructed : Bool

/-- minio.New: construct a data-plane client from the configuration. -/
def minioNew (endpoint accessKey secretKey : String) (secure : Bool) : MinioClient :=
  ⟨endpoint, accessKey, secretKey, secure⟩

/-- madmin.New: construct an admin client from the configuration. -/
def madminNew (endpoint accessKey secretKey : String) (secure : Bool) : MinioClient :=
  ⟨endpoint, accessKey, secretKey, secure⟩

/-- getClient from the source.  Note the source's short variable
declaration inside the function body declares a new local named like
the package-level cache variable, so the cache field of the globals is
left unchanged after construction, exactly as the Go code leaves it. -/
def getClient (env : List (String × String)) (g : ClientGlobals) :
    ProviderResult :=
  match g.minioClient with
  | some c => ⟨.ok c, g, false⟩
  | none =>
    match initializeEnvs env g with
    | (g1, some e) => ⟨.error e, g1, false⟩
    | (g1, none) =>
      let c := minioNew g1.minioEndpoint g1.accessKeyID g1.secretAccessKey g1.useSSL
      ⟨.ok c, g1, true⟩

/-- getAdminClient from the source; same shadowing of the cache
variable as getClient. -/
def getAdminClient (env : List (String × String)) (g : ClientGlobals) :
    ProviderResult :=
  match g.minioAdminClient with
  | some c => ⟨.ok c, g, false⟩
  | none =>
    match initializeEnvs env g with
    | (g1, some e) => ⟨.error e, g1, false⟩
    | (g1, none) =>
      let c := madminNew g1.minioEndpoint g1.accessKeyID g1.secretAccessKey g1.useSSL
      ⟨.ok c, g1, true⟩

/-! ## Bucket reconciler (bucket controller source) -/

structure BucketSpec where
  name : String
  quota : Nat
deriving DecidableEq

/-- A Bucket custom resource as the reconciler sees it. -/
structure Bucket where
  name : String
  nspace : String
  spec : BucketSpec
  status : ResourceStatus
  finalizers : List String
  markedForDeletion : Bool
deriving DecidableEq

/-- Observable remote state of the bucket named by the record. -/
structure RemoteBucketState where
  present : Bool
  objects : Nat
deriving DecidableEq

/-- The remote calls the deletion drain loop performs, with the option
flags the source passes. -/
inductive DrainCall where
  | removeBucket
  | listObjects (recursive : Bool) (withVersions : Bool)
  | removeObjects (governanceBypass : Bool)
deriving DecidableEq

/-- MinIO BucketNotEmpty error text (matched via "not empty"). -/
def bucketNotEmptyMsg : String := "The bucket you tried to delete is not empty"

/-- MinIO NoSuchBucket error text (matched via "does not exist"). -/
def bucketAbsentMsg : String := "The specified bucket does not exist"

/-- MinIO BucketAlreadyOwnedByYou error text, the exact phrase the
bucket Creating branch absorbs. -/
def bucketAlreadyOwnedMsg : String :=
  "Your previous request to create the named bucket succeeded and you already own it"

/-- Remote semantics of RemoveBucket: absent bucket yields NoSuchBucket,
non-empty bucket yields BucketNotEmpty, otherwise the bucket is gone. -/
def removeBucketCall (b : RemoteBucketState) : Except String RemoteBucketState :=
  if b.present = false then .error bucketAbsentMsg
  else if b.objects ≠ 0 then .error bucketNotEmptyMsg
  else .ok { b with present := false }

/-- Remote semantics of one ListObjects + RemoveObjects round: at most
1000 of the listed object versions are deleted per call (the reason the
source loops). -/
def removeObjectsCall (b : RemoteBucketState) : RemoteBucketState :=
  { b with objects := b.objects - 1000 }

structure DrainResult where
  err : Option String
  remote : RemoteBucketState
  trace : List DrainCall

/-- The for-loop of finalizerOpsForBucket.  The fuel argument only
bounds the model's recursion; with fuel above the object count it is
never exhausted, matching the source loop, which terminates as soon as
RemoveBucket stops reporting a non-empty bucket. -/
def drainLoop : Nat → Bool → RemoteBucketState → List DrainCall → DrainResult
  | 0, _, b, tr => ⟨some bucketNotEmptyMsg, b, tr⟩
  | fuel + 1, emptyBucketOnDelete, b, tr =>
    match removeBucketCall b with
    | .ok b1 => ⟨none, b1, tr ++ [.removeBucket]⟩
    | .error e =>
      if strContains e "does not exist" then ⟨none, b, tr ++ [.removeBucket]⟩
      else if strContains e "not empty" && emptyBucketOnDelete then
        drainLoop fuel emptyBucketOnDelete (removeObjectsCall b)
          (tr ++ [.removeBucket, .listObjects true true, .removeObjects true])
      else ⟨some e, b, tr ++ [.removeBucket]⟩

/-- readEmptyBucketOnDelete from the source: absent variable defaults
to false; a present but unparsable value is an error. -/
def readEmptyBucketOnDelete (env : List (String × String)) :
    Except String Bool :=
  match lookupEnv env envEmptyBucketOnDelete with
  | none => .ok false
  | some s =>
    match parseBool s with
    | none => .error (envEmptyBucketOnDelete ++ " must be either true or false")
    | some b => .ok b

structure FinalizerOpsResult where
  err : Option String
  remote : RemoteBucketState
  trace : List DrainCall
  events : List String

/-- finalizerOpsForBucket: obtain the client, read the drain flag, run
the drain loop, and on success raise the deletion event. -/
def finalizerOpsForBucket (clientResult : Except String Unit)
    (env : List (String × String)) (remote : RemoteBucketState)
    (cr : Bucket) : FinalizerOpsResult :=
  match clientResult with
  | .error e => ⟨some e, remote, [], []⟩
  | .ok _ =>
    match readEmptyBucketOnDelete env with
    | .error e => ⟨some e, remote, [], []⟩
    | .ok emptyBucketOnDelete =>
      let d := drainLoop (remote.objects + 1) emptyBucketOnDelete remote []
      match d.err with
      | some e => ⟨some e, d.remote, d.trace, []⟩
      | none => ⟨none, d.remote, d.trace, [deletingEvent cr.name cr.nspace]⟩

/-- setBucketErrorState: record the failure in the status. -/
def setBucketErrorState (cr : Bucket) (e : String) : Bucket :=
  { cr with status := { state := typeError, message := e } }

/-- Responses of the remote service for the calls one bucket reconcile
invocation may perform. -/
structure BucketOracle where
  env : List (String × String)
  client : Except String Unit
  adminClient : Except String Unit
  makeBucket : Option String
  setQuota : Option String
  getQuota : Except String Nat
  remote : RemoteBucketState

structure BucketOutcome where
  cr : Bucket
  result : CtrlResult
  err : Option String
  remote : RemoteBucketState
  events : List String
  trace : List DrainCall

/-- Rest of the bucket Creating branch after MakeBucket was accepted:
apply the quota when requested, register the finalizer, set Ready and
ask for an immediate requeue. -/
def bucketCreateRest (o : BucketOracle) (cr : Bucket) : BucketOutcome :=
  let quotaErr : Option String := if cr.spec.quota ≠ 0 then o.setQuota else none
  match quotaErr with
  | some e => ⟨setBucketErrorState cr e, ⟨false⟩, some e, o.remote, [], []⟩
  | none =>
    let cr1 := { cr with finalizers := addFinalizer bucketFinalizer cr.finalizers }
    ⟨{ cr1 with status := { cr1.status with state := typeReady } },
      ⟨true⟩, none, o.remote, [], []⟩

/-- BucketReconciler.Reconcile, branch for branch.  The record was
successfully read; Kubernetes status/finalizer writes are modelled as
pure record updates. -/
def bucketReconcile (o : BucketOracle) (cr : Bucket) : BucketOutcome :=
  if cr.status.state == "" then
    ⟨{ cr with status := { cr.status with state := typeCreating } },
      ⟨true⟩, none, o.remote, [], []⟩
  else if cr.status.state == typeCreating then
    match o.client with
    | .error e => ⟨setBucketErrorState cr e, ⟨false⟩, some e, o.remote, [], []⟩
    | .ok _ =>
      match o.makeBucket with
      | some e =>
        if strContains e bucketAlreadyOwnedMsg then bucketCreateRest o cr
        else ⟨setBucketErrorState cr e, ⟨false⟩, some e, o.remote, [], []⟩
      | none => bucketCreateRest o cr
  else if cr.markedForDeletion then
    if cr.finalizers.contains bucketFinalizer then
      let f := finalizerOpsForBucket o.client o.env o.remote cr
      match f.err with
      | some e =>
        ⟨setBucketErrorState cr e, ⟨false⟩, some e, f.remote, f.events, f.trace⟩
      | none =>
        let cr1 := { cr with status := { cr.status with state := typeDegraded } }
        ⟨{ cr1 with finalizers := removeFinalizer bucketFinalizer cr1.finalizers },
          ⟨false⟩, none, f.remote, f.events, f.trace⟩
    else ⟨cr, ⟨false⟩, none, o.remote, [], []⟩
  else if cr.status.state == typeReady then
    match o.adminClient with
    | .error e => ⟨setBucketErrorState cr e, ⟨false⟩, some e, o.remote, [], []⟩
    | .ok _ =>
      let quota : Nat :=
        match o.getQuota with
        | .error _ => 0
        | .ok q => q
      if quota ≠ cr.spec.quota then
        ⟨{ cr with status := { cr.status with state := typeUpdating } },
          ⟨false⟩, none, o.remote, [], []⟩
      else ⟨cr, ⟨false⟩, none, o.remote, [], []⟩
  else if cr.status.state == typeUpdating then
    match o.setQuota with
    | some e => ⟨setBucketErrorState cr e, ⟨false⟩, some e, o.remote, [], []⟩
    | none =>
      ⟨{ cr with status := { cr.status with state := typeReady } },
        ⟨false⟩, none, o.remote, [], []⟩
  else ⟨cr, ⟨false⟩, none, o.remote, [], []⟩

/-! ## Policy reconciler (policy controller source) -/

structure PolicySpec where
  name : String
  content : String
deriving DecidableEq

/-- A Policy custom resource as the reconciler sees it. -/
structure Policy where
  name : String
  nspace : String
  spec : PolicySpec
  status : ResourceStatus
  finalizers : List String
  markedForDeletion : Bool
deriving DecidableEq

/-- Responses of the remote service for the calls one policy reconcile
invocation may perform.  infoPolicy is the raw JSON document
InfoCannedPolicyV2 reports as stored. -/
structure PolicyOracle where
  adminClient : Except String Unit
  addPolicy : Option String
  infoPolicy : Except String String
  removePolicy : Option String

structure PolicyOutcome where
  cr : Policy
  result : CtrlResult
  err : Option String
  events : List String

/-- setPolicyErrorState: record the failure in the status. -/
def setPolicyErrorState (cr : Policy) (e : String) : Policy :=
  { cr with status := { state := typeError, message := e } }

/-- The read-back in the Creating and Updating branches: fetch the
stored policy, marshal it, and overwrite Spec.Content with the
canonical server-returned form. -/
def policyWriteBack (o : PolicyOracle) (cr : Policy) : Except String Policy :=
  match o.infoPolicy with
  | .error e => .error e
  | .ok raw =>
    match marshalRawMessage raw with
    | none => .error "json: unsupported value"
    | some marshalled => .ok { cr with spec := { cr.spec with content := marshalled } }

/-- finalizerOpsForPolicy: remove the canned policy remotely.  Every
removal error is propagated; there is no not-found absorption in this
helper (contrast finalizerOpsForUser and the bucket drain).  On success
the deletion event is raised. -/
def finalizerOpsForPolicy (o : PolicyOracle) (cr : Policy) :
    Except String (List String) :=
  match o.adminClient with
  | .error e => .error e
  | .ok _ =>
    match o.removePolicy with
    | some e => .error e
    | none => .ok [deletingEvent cr.name cr.nspace]

/-- PolicyReconciler.Reconcile, branch for branch. -/
def policyReconcile (o : PolicyOracle) (cr : Policy) : PolicyOutcome :=
  if cr.status.state == "" then
    ⟨{ cr with status := { cr.status with state := typeCreating } }, ⟨true⟩, none, []⟩
  else if cr.status.state == typeCreating then
    match o.adminClient with
    | .error e => ⟨setPolicyErrorState cr e, ⟨false⟩, some e, []⟩
    | .ok _ =>
      match o.addPolicy with
      | some e => ⟨setPolicyErrorState cr e, ⟨false⟩, some e, []⟩
      | none =>
        match policyWriteBack o cr with
        | .error e => ⟨setPolicyErrorState cr e, ⟨false⟩, some e, []⟩
        | .ok cr1 =>
          let cr2 := { cr1 with finalizers := addFinalizer policyFinalizer cr1.finalizers }
          ⟨{ cr2 with status := { cr2.status with state := typeReady } }, ⟨true⟩, none, []⟩
  else if cr.markedForDeletion then
    if cr.finalizers.contains policyFinalizer then
      match finalizerOpsForPolicy o cr with
      | .error e => ⟨setPolicyErrorState cr e, ⟨false⟩, some e, []⟩
      | .ok evs =>
        let cr1 := { cr with status := { cr.status with state := typeDegraded } }
        ⟨{ cr1 with finalizers := removeFinalizer policyFinalizer cr1.finalizers },
          ⟨false⟩, none, evs⟩
    else ⟨cr, ⟨false⟩, none, []⟩
  else if cr.status.state == typeReady then
    match o.adminClient with
    | .error e => ⟨setPolicyErrorState cr e, ⟨false⟩, some e, []⟩
    | .ok _ =>
      match o.infoPolicy with
      | .error e => ⟨setPolicyErrorState cr e, ⟨false⟩, some e, []⟩
      | .ok raw =>
        match equivalentPolicies raw cr.spec.content with
        | .error e => ⟨setPolicyErrorState cr e, ⟨false⟩, some e, []⟩
        | .ok equivalent =>
          if equivalent then ⟨cr, ⟨false⟩, none, []⟩
          else
            ⟨{ cr with status := { cr.status with state := typeUpdating } },
              ⟨false⟩, none, []⟩
  else if cr.status.state == typeUpdating then
    match o.adminClient with
    | .error e => ⟨setPolicyErrorState cr e, ⟨false⟩, some e, []⟩
    | .ok _ =>
      match o.addPolicy with
      | some e => ⟨setPolicyErrorState cr e, ⟨false⟩, some e, []⟩
      | none =>
        match policyWriteBack o cr with
        | .error e => ⟨setPolicyErrorState cr e, ⟨false⟩, some e, []⟩
        | .ok cr1 =>
          ⟨{ cr1 with status := { cr1.status with state := typeReady } },
            ⟨false⟩, none, []⟩
  else ⟨cr, ⟨false⟩, none, []⟩

/-! ## User reconciler (user controller source) -/

structure UserSpec where
  accessKey : String
  secretKey : String
  policies : List String
  accountStatus : String
deriving DecidableEq

/-- A User custom resource as the reconciler sees it. -/
structure User where
  name : String
  nspace : String
  spec : UserSpec
  status : ResourceStatus
  finalizers : List String
  markedForDeletion : Bool
deriving DecidableEq

/-- One AttachPolicy / DetachPolicy request issued to the admin API,
with the policy list it carries. -/
inductive PolicyAssocCall where
  | attach (policies : List String)
  | detach (policies : List String)
deriving DecidableEq

/-- The error text MinIO gives for an attach/detach with no net effect,
the phrase the Creating branch absorbs. -/
def noNetEffectMsg : String := "policy update has no net effect"

/-- The error text MinIO gives when removing an absent user (matched
via "does not exist"). -/
def userAbsentMsg : String := "The specified user does not exist"

/-- Responses of the remote service for the calls one user reconcile
invocation may perform.  userInfoPolicyName is the comma-joined
PolicyName field of GetUserInfo. -/
structure UserOracle where
  adminClient : Except String Unit
  setUser : Option String
  attachCreating : Option String
  userInfoPolicyName : Except String String
  detachPolicy : Option String
  attachPolicy : Option String
  removeUser : Option String

structure UserOutcome where
  cr : User
  result : CtrlResult
  err : Option String
  events : List String
  assoc : List PolicyAssocCall

/-- setUserErrorState: record the failure in the status. -/
def setUserErrorState (cr : User) (e : String) : User :=
  { cr with status := { state := typeError, message := e } }

/-- finalizerOpsForUser: remove the user remotely, absorbing a
"does not exist" response as success; on success the deletion event is
raised. -/
def finalizerOpsForUser (o : UserOracle) (cr : User) :
    Except String (List String) :=
  match o.adminClient with
  | .error e => .error e
  | .ok _ =>
    match o.removeUser with
    | some e =>
      if strContains e "does not exist" then .ok [deletingEvent cr.name cr.nspace]
      else .error e
    | none => .ok [deletingEvent cr.name cr.nspace]

/-- Tail of the user Ready branch after GetUserInfo succeeded: split
the attached-policy list, diff it against Spec.Policies, and for an
enabled account detach then attach the respective differences. -/
def userReadyAfterInfo (o : UserOracle) (cr : User) (policyName : String) :
    UserOutcome :=
  let currentPolicies := splitComma policyName
  let d := arrayDifference cr.spec.policies currentPolicies
  let toDetach := d.1
  let toAttach := d.2
  let enabled := cr.spec.accountStatus == "enabled"
  let detachCalls : List PolicyAssocCall :=
    if enabled && toDetach.length > 0 then [.detach toDetach] else []
  if enabled && toDetach.length > 0 then
    match o.detachPolicy with
    | some e => ⟨setUserErrorState cr e, ⟨false⟩, some e, [], detachCalls⟩
    | none =>
      if enabled && toAttach.length > 0 then
        match o.attachPolicy with
        | some e =>
          ⟨setUserErrorState cr e, ⟨false⟩, some e, [], detachCalls ++ [.attach toAttach]⟩
        | none => ⟨cr, ⟨false⟩, none, [], detachCalls ++ [.attach toAttach]⟩
      else ⟨cr, ⟨false⟩, none, [], detachCalls⟩
  else
    if enabled && toAttach.length > 0 then
      match o.attachPolicy with
      | some e => ⟨setUserErrorState cr e, ⟨false⟩, some e, [], [.attach toAttach]⟩
      | none => ⟨cr, ⟨false⟩, none, [], [.attach toAttach]⟩
    else ⟨cr, ⟨false⟩, none, [], []⟩

/-- Rest of the user Creating branch after SetUser succeeded: register
the finalizer, attach the declared policies for an enabled account
(absorbing the no-net-effect response), set Ready, requeue. -/
def userCreateRest (o : UserOracle) (cr : User) : UserOutcome :=
  let cr1 := { cr with finalizers := addFinalizer userFinalizer cr.finalizers }
  let readyOut : User → List PolicyAssocCall → UserOutcome := fun c calls =>
    ⟨{ c with status := { c.status with state := typeReady } }, ⟨true⟩, none, [], calls⟩
  if cr.spec.accountStatus == "enabled" && cr.spec.policies.length > 0 then
    match o.attachCreating with
    | some e =>
      if strContains e noNetEffectMsg then readyOut cr1 [.attach cr.spec.policies]
      else ⟨setUserErrorState cr1 e, ⟨false⟩, some e, [], [.attach cr.spec.policies]⟩
    | none => readyOut cr1 [.attach cr.spec.policies]
  else readyOut cr1 []

/-- UserReconciler.Reconcile, branch for branch. -/
def userReconcile (o : UserOracle) (cr : User) : UserOutcome :=
  if cr.status.state == "" then
    ⟨{ cr with status := { cr.status with state := typeCreating } }, ⟨true⟩, none, [], []⟩
  else if cr.status.state == typeCreating then
    match o.adminClient with
    | .error e => ⟨setUserErrorState cr e, ⟨false⟩, some e, [], []⟩
    | .ok _ =>
      match o.setUser with
      | some e => ⟨setUserErrorState cr e, ⟨false⟩, some e, [], []⟩
      | none => userCreateRest o cr
  else if cr.markedForDeletion then
    if cr.finalizers.contains userFinalizer then
      match finalizerOpsForUser o cr with
      | .error _ => ⟨cr, ⟨true⟩, none, [], []⟩
      | .ok evs =>
        let cr1 := { cr with status := { cr.status with state := typeDegraded } }
        ⟨{ cr1 with finalizers := removeFinalizer userFinalizer cr1.finalizers },
          ⟨false⟩, none, evs, []⟩
    else ⟨cr, ⟨false⟩, none, [], []⟩
  else if cr.status.state == typeReady then
    match o.adminClient with
    | .error e => ⟨setUserErrorState cr e, ⟨false⟩, some e, [], []⟩
    | .ok _ =>
      match o.setUser with
      | some e => ⟨setUserErrorState cr e, ⟨false⟩, some e, [], []⟩
      | none =>
        match o.userInfoPolicyName with
        | .error e => ⟨setUserErrorState cr e, ⟨false⟩, some e, [], []⟩
        | .ok policyName => userReadyAfterInfo o cr policyName
  else ⟨cr, ⟨false⟩, none, [], []⟩

/-! ## Option flags and concrete fixtures used by the theorems below -/

/-- Whether a drain-loop remote call carries the option flags the
source passes: recursive versioned listing and governance bypass. -/
def drainCallFlagsOk : DrainCall → Bool
  | .removeBucket => true
  | .listObjects r w => r && w
  | .removeObjects g => g

def drainEnabledEnv : List (String × String) := [(envEmptyBucketOnDelete, "true")]

def sampleDeletedBucket : Bucket :=
  ⟨"b", "ns", ⟨"mybucket", 0⟩, ⟨typeReady, ""⟩, [bucketFinalizer], true⟩

def sampleDrainOracle : BucketOracle :=
  ⟨drainEnabledEnv, .ok (), .ok (), none, none, .ok 0, ⟨true, 3⟩⟩

def sampleCreatingBucket : Bucket :=
  ⟨"b", "ns", ⟨"mybucket", 5⟩, ⟨typeCreating, ""⟩, [], false⟩

def sampleCreatingBucketOracle : BucketOracle :=
  ⟨[], .ok (), .ok (), some bucketAlreadyOwnedMsg, none, .ok 0, ⟨true, 0⟩⟩

def sampleCreatingPolicy : Policy :=
  ⟨"p", "ns", ⟨"pol", "\x7b \"a\":1 \x7d"⟩, ⟨typeCreating, ""⟩, [], false⟩

def sampleCreatingPolicyOracle : PolicyOracle :=
  ⟨.ok (), none, .ok "\x7b\"a\":1\x7d", none⟩

def sampleCreatingUser : User :=
  ⟨"u", "ns", ⟨"ak", "sk", ["readonly"], "enabled"⟩, ⟨typeCreating, ""⟩, [], false⟩

def sampleCreatingUserOracle : UserOracle :=
  ⟨.ok (), none, some noNetEffectMsg, .ok "", none, none, none⟩

def sampleReadyBucket : Bucket :=
  ⟨"b", "ns", ⟨"mybucket", 7⟩, ⟨typeReady, ""⟩, [bucketFinalizer], false⟩

def sampleQuotaFailOracle : BucketOracle :=
  ⟨[], .ok (), .ok (), none, none, .error "connection refused", ⟨true, 0⟩⟩

def sampleDeletedUser : User :=
  ⟨"u", "ns", ⟨"ak", "sk", [], "enabled"⟩, ⟨typeReady, ""⟩, [userFinalizer], true⟩

def sampleUserRemoveFailOracle : UserOracle :=
  ⟨.ok (), none, none, .ok "", none, none, some "access denied"⟩

def sampleDeletedPolicy : Policy :=
  ⟨"p", "ns", ⟨"pol", "\x7b\x7d"⟩, ⟨typeReady, ""⟩, [policyFinalizer], true⟩

def samplePolicyRemoveFailOracle : PolicyOracle :=
  ⟨.ok (), none, .ok "\x7b\x7d", some "The canned policy does not exist."⟩

def sampleErrorBucket : Bucket :=
  ⟨"b", "ns", ⟨"mybucket", 0⟩, ⟨typeError, "quota write failed"⟩, [bucketFinalizer], true⟩

def sampleAbsentRemoteOracle : BucketOracle :=
  ⟨[], .ok (), .ok (), none, none, .ok 0, ⟨false, 0⟩⟩

def sampleReadyPolicy : Policy :=
  ⟨"p", "ns", ⟨"pol", "\x7b \"a\":1 , \"b\":2 \x7d"⟩, ⟨typeReady, ""⟩, [policyFinalizer], false⟩

def samplePolicyInfoOracle (raw : String) : PolicyOracle := ⟨.ok (), none, .ok raw, none⟩

def missingAccessEnv : List (String × String) :=
  [(envEndpoint, "localhost:9000"), (envSecretAccessKey, "sk")]

def allSetEnv : List (String × String) :=
  [(envEndpoint, "localhost:9000"), (envAccessKeyID, "minioadmin"),
   (envSecretAccessKey, "minioadmin")]

def clientFailMsg : String := envAccessKeyID ++ " must be set"

def clientFailBucketOracle : BucketOracle :=
  ⟨[], .error clientFailMsg, .error clientFailMsg, none, some clientFailMsg,
    .error clientFailMsg, ⟨true, 0⟩⟩

def adminFailUserOracle : UserOracle :=
  ⟨.error clientFailMsg, none, none, .error clientFailMsg, none, none, none⟩

/-! ## Helper lemmas -/

theorem strContains_notEmpty_absent :
    strContains bucketNotEmptyMsg "does not exist" = false := rfl

theorem strContains_notEmpty_notEmpty :
    strContains bucketNotEmptyMsg "not empty" = true := rfl

theorem drainLoop_enabled_drains :
    ∀ (fuel : Nat) (b : RemoteBucketState) (tr : List DrainCall),
      b.objects < fuel → b.present = true →
      (drainLoop fuel true b tr).err = none ∧
      (drainLoop fuel true b tr).remote.present = false ∧
      (∀ c ∈ (drainLoop fuel true b tr).trace, c ∈ tr ∨ drainCallFlagsOk c = true) := by
  intro fuel
  induction fuel with
  | zero => intro b tr h; omega
  | succ f ih =>
    rintro ⟨p, n⟩ tr hlt hp
    simp only at hp hlt
    subst hp
    by_cases h0 : n = 0
    · subst h0
      simp only [drainLoop, removeBucketCall]
      norm_num
      intro c hc
      rcases hc with hc | hc
      · exact Or.inl hc
      · right; simp [hc, drainCallFlagsOk]
    · simp only [drainLoop, removeBucketCall]
      rw [if_neg (by simp), if_pos (by simpa using h0)]
      simp only [strContains_notEmpty_absent, strContains_notEmpty_notEmpty]
      norm_num
      have hrec := ih ⟨true, n - 1000⟩
        (tr ++ [DrainCall.removeBucket, DrainCall.listObjects true true,
                DrainCall.removeObjects true]) (by simp only; omega) rfl
      simp only [removeObjectsCall]
      refine ⟨hrec.1, hrec.2.1, ?_⟩
      intro c hc
      rcases hrec.2.2 c hc with h | h
      · rcases List.mem_append.mp h with h | h
        · exact Or.inl h
        · right
          simp only [List.mem_cons, List.not_mem_nil, or_false] at h
          rcases h with rfl | rfl | rfl <;> rfl
      · exact Or.inr h

theorem finOps_disabled (env : List (String × String)) (remote : RemoteBucketState)
    (cr : Bucket) (hp : remote.present = true) (hn : 0 < remote.objects)
    (hebd : readEmptyBucketOnDelete env = .ok false) :
    finalizerOpsForBucket (.ok ()) env remote cr =
      ⟨some bucketNotEmptyMsg, remote, [.removeBucket], []⟩ := by
  obtain ⟨p, n⟩ := remote
  simp only at hp hn
  subst hp
  simp only [finalizerOpsForBucket, hebd]
  obtain ⟨m, rfl⟩ : ∃ m, n = m + 1 := ⟨n - 1, by omega⟩
  have h1 : removeBucketCall ⟨true, m + 1⟩ = .error bucketNotEmptyMsg := by
    simp [removeBucketCall]
  simp only [drainLoop, h1]
  rfl

theorem finOps_enabled (env : List (String × String)) (remote : RemoteBucketState)
    (cr : Bucket) (hp : remote.present = true) (hebd : readEmptyBucketOnDelete env = .ok true) :
    (finalizerOpsForBucket (.ok ()) env remote cr).err = none ∧
    (finalizerOpsForBucket (.ok ()) env remote cr).remote.present = false ∧
    (finalizerOpsForBucket (.ok ()) env remote cr).events = [deletingEvent cr.name cr.nspace] ∧
    (∀ c ∈ (finalizerOpsForBucket (.ok ()) env remote cr).trace, drainCallFlagsOk c = true) := by
  have h := drainLoop_enabled_drains (remote.objects + 1) remote [] (by omega) hp
  simp only [finalizerOpsForBucket, hebd]
  rcases hd : (drainLoop (remote.objects + 1) true remote []).err with _ | e
  · refine ⟨rfl, ?_, rfl, ?_⟩
    · exact h.2.1
    · intro c hc
      rcases h.2.2 c hc with h' | h'
      · simp at h'
      · exact h'
  · rw [hd] at h; simp at h

theorem finOps_absent (env : List (String × String)) (remote : RemoteBucketState)
    (cr : Bucket) (ebd : Bool) (hp : remote.present = false)
    (hebd : readEmptyBucketOnDelete env = .ok ebd) :
    finalizerOpsForBucket (.ok ()) env remote cr =
      ⟨none, remote, [.removeBucket], [deletingEvent cr.name cr.nspace]⟩ := by
  obtain ⟨p, n⟩ := remote
  simp only at hp
  subst hp
  simp only [finalizerOpsForBucket, hebd]
  have h1 : removeBucketCall ⟨false, n⟩ = .error bucketAbsentMsg := by
    simp [removeBucketCall]
  obtain ⟨m, hm⟩ : ∃ m, n + 1 = m + 1 := ⟨n, rfl⟩
  rw [hm]
  simp only [drainLoop, h1]
  rfl

theorem contains_addFinalizer (f : String) (l : List String) :
    (addFinalizer f l).contains f = true := by
  simp only [addFinalizer]
  by_cases h : l.contains f = true
  · rw [if_pos h]; exact h
  · rw [if_neg h]; simp [List.contains_eq_any_beq, List.any_append]

theorem bucketReconcile_deletion_eq (cr : Bucket) (o : BucketOracle)
    (hb1 : (cr.status.state == "") = false)
    (hb2 : (cr.status.state == typeCreating) = false)
    (hmark : cr.markedForDeletion = true)
    (hfin : cr.finalizers.contains bucketFinalizer = true) :
    bucketReconcile o cr =
      (match (finalizerOpsForBucket o.client o.env o.remote cr).err with
        | some e =>
          (⟨setBucketErrorState cr e, ⟨false⟩, some e,
            (finalizerOpsForBucket o.client o.env o.remote cr).remote,
            (finalizerOpsForBucket o.client o.env o.remote cr).events,
            (finalizerOpsForBucket o.client o.env o.remote cr).trace⟩ : BucketOutcome)
        | none =>
          ⟨{ { cr with status := { cr.status with state := typeDegraded } } with
               finalizers := removeFinalizer bucketFinalizer cr.finalizers },
            ⟨false⟩, none,
            (finalizerOpsForBucket o.client o.env o.remote cr).remote,
            (finalizerOpsForBucket o.client o.env o.remote cr).events,
            (finalizerOpsForBucket o.client o.env o.remote cr).trace⟩) := by
  simp only [bucketReconcile, hb1, hb2, hmark, hfin]
  rcases hf : (finalizerOpsForBucket o.client o.env o.remote cr).err with _ | e <;>
    simp [hf, hmark]

theorem policyWriteBack_preserves (o : PolicyOracle) (cr cr1 : Policy)
    (h : policyWriteBack o cr = .ok cr1) :
    cr1.status = cr.status ∧ cr1.finalizers = cr.finalizers := by
  unfold policyWriteBack at h
  split at h
  · exact absurd h (by simp)
  · split at h
    · exact absurd h (by simp)
    · simp only [Except.ok.injEq] at h
      subst h
      exact ⟨rfl, rfl⟩

theorem bucketReconcile_message_invariant (o : BucketOracle) (cr : Bucket) :
    (bucketReconcile o cr).cr.status.message = cr.status.message ∨
    (bucketReconcile o cr).cr.status.state = typeError := by
  unfold bucketReconcile bucketCreateRest setBucketErrorState
  repeat' split
  all_goals dsimp only
  all_goals repeat' split
  all_goals first | (left; rfl) | (right; rfl)

theorem policyReconcile_message_invariant (o : PolicyOracle) (cr : Policy) :
    (policyReconcile o cr).cr.status.message = cr.status.message ∨
    (policyReconcile o cr).cr.status.state = typeError := by
  unfold policyReconcile setPolicyErrorState
  repeat' split
  all_goals dsimp only
  all_goals try first | (left; rfl) | (right; rfl)
  case _ cr1 heq => exact Or.inl (by simp [(policyWriteBack_preserves o cr cr1 heq).1])
  case _ cr1 heq => exact Or.inl (by simp [(policyWriteBack_preserves o cr cr1 heq).1])

theorem userReconcile_message_invariant (o : UserOracle) (cr : User) :
    (userReconcile o cr).cr.status.message = cr.status.message ∨
    (userReconcile o cr).cr.status.state = typeError := by
  unfold userReconcile userCreateRest userReadyAfterInfo setUserErrorState
  repeat' split
  all_goals dsimp only
  all_goals repeat' split
  all_goals first | (left; rfl) | (right; rfl)

theorem initializeEnvs_snd_endpoint (env : List (String × String)) (g : ClientGlobals)
    (h1 : g.minioEndpoint = "") (h2 : lookupEnv env envEndpoint = none) :
    initializeEnvs env g = (g, some (envEndpoint ++ " must be set")) := by
  simp [initializeEnvs, h1, h2]

theorem initializeEnvs_snd_access (env : List (String × String)) (g : ClientGlobals)
    (hE : ¬(g.minioEndpoint = "" ∧ lookupEnv env envEndpoint = none))
    (h1 : g.accessKeyID = "") (h2 : lookupEnv env envAccessKeyID = none) :
    (initializeEnvs env g).2 = some (envAccessKeyID ++ " must be set") := by
  by_cases hEe : g.minioEndpoint = ""
  · rcases hv : lookupEnv env envEndpoint with _ | v
    · exact absurd ⟨hEe, hv⟩ hE
    · simp [initializeEnvs, hEe, hv, initializeEnvsAccess, h1, h2]
  · simp [initializeEnvs, hEe, initializeEnvsAccess, h1, h2]

theorem initializeEnvs_snd_secret (env : List (String × String)) (g : ClientGlobals)
    (hE : ¬(g.minioEndpoint = "" ∧ lookupEnv env envEndpoint = none))
    (hA : ¬(g.accessKeyID = "" ∧ lookupEnv env envAccessKeyID = none))
    (h1 : g.secretAccessKey = "") (h2 : lookupEnv env envSecretAccessKey = none) :
    (initializeEnvs env g).2 = some (envSecretAccessKey ++ " must be set") := by
  have hsec : ∀ g1 : ClientGlobals, g1.secretAccessKey = "" →
      initializeEnvsSecret env g1 = (g1, some (envSecretAccessKey ++ " must be set")) := by
    intro g1 hg1
    simp [initializeEnvsSecret, hg1, h2]
  have hacc : ∀ g1 : ClientGlobals, ¬(g1.accessKeyID = "" ∧ lookupEnv env envAccessKeyID = none) →
      g1.secretAccessKey = "" →
      (initializeEnvsAccess env g1).2 = some (envSecretAccessKey ++ " must be set") := by
    intro g1 hg1 hg1s
    by_cases ha : g1.accessKeyID = ""
    · rcases hv : lookupEnv env envAccessKeyID with _ | v
      · exact absurd ⟨ha, hv⟩ hg1
      · rw [show initializeEnvsAccess env g1 =
            initializeEnvsSecret env { g1 with accessKeyID := v } by
              simp [initializeEnvsAccess, ha, hv]]
        rw [hsec { g1 with accessKeyID := v } (by simpa using hg1s)]
    · rw [show initializeEnvsAccess env g1 = initializeEnvsSecret env g1 by
        simp [initializeEnvsAccess, ha]]
      rw [hsec g1 hg1s]
  by_cases hEe : g.minioEndpoint = ""
  · rcases hv : lookupEnv env envEndpoint with _ | v
    · exact absurd ⟨hEe, hv⟩ hE
    · rw [show initializeEnvs env g =
          initializeEnvsAccess env { g with minioEndpoint := v } by
            simp [initializeEnvs, hEe, hv]]
      exact hacc _ (by simpa using hA) (by simpa using h1)
  · rw [show initializeEnvs env g = initializeEnvsAccess env g by
      simp [initializeEnvs, hEe]]
    exact hacc _ hA h1

theorem initializeEnvs_snd_ok (env : List (String × String)) (g : ClientGlobals)
    (hE : ¬(g.minioEndpoint = "" ∧ lookupEnv env envEndpoint = none))
    (hA : ¬(g.accessKeyID = "" ∧ lookupEnv env envAccessKeyID = none))
    (hS : ¬(g.secretAccessKey = "" ∧ lookupEnv env envSecretAccessKey = none))
    (hSSL : lookupEnv env envUseSSL = none ∨
      ∃ s b, lookupEnv env envUseSSL = some s ∧ parseBool s = some b) :
    (initializeEnvs env g).2 = none := by
  have hssl : ∀ g1 : ClientGlobals, (initializeEnvsSSL env g1).2 = none := by
    intro g1
    rcases hSSL with h | ⟨s, b, hs, hb⟩
    · simp [initializeEnvsSSL, h]
    · simp [initializeEnvsSSL, hs, hb]
  have hsec : ∀ g1 : ClientGlobals,
      ¬(g1.secretAccessKey = "" ∧ lookupEnv env envSecretAccessKey = none) →
      (initializeEnvsSecret env g1).2 = none := by
    intro g1 hg1
    by_cases h : g1.secretAccessKey = ""
    · rcases hv : lookupEnv env envSecretAccessKey with _ | v
      · exact absurd ⟨h, hv⟩ hg1
      · rw [show initializeEnvsSecret env g1 =
            initializeEnvsSSL env { g1 with secretAccessKey := v } by
              simp [initializeEnvsSecret, h, hv]]
        exact hssl _
    · rw [show initializeEnvsSecret env g1 = initializeEnvsSSL env g1 by
        simp [initializeEnvsSecret, h]]
      exact hssl _
  have hacc : ∀ g1 : ClientGlobals,
      ¬(g1.accessKeyID = "" ∧ lookupEnv env envAccessKeyID = none) →
      ¬(g1.secretAccessKey = "" ∧ lookupEnv env envSecretAccessKey = none) →
      (initializeEnvsAccess env g1).2 = none := by
    intro g1 hg1 hg1s
    by_cases h : g1.accessKeyID = ""
    · rcases hv : lookupEnv env envAccessKeyID with _ | v
      · exact absurd ⟨h, hv⟩ hg1
      · rw [show initializeEnvsAccess env g1 =
            initializeEnvsSecret env { g1 with accessKeyID := v } by
              simp [initializeEnvsAccess, h, hv]]
        exact hsec _ (by simpa using hg1s)
    · rw [show initializeEnvsAccess env g1 = initializeEnvsSecret env g1 by
        simp [initializeEnvsAccess, h]]
      exact hsec _ hg1s
  by_cases hEe : g.minioEndpoint = ""
  · rcases hv : lookupEnv env envEndpoint with _ | v
    · exact absurd ⟨hEe, hv⟩ hE
    · rw [show initializeEnvs env g =
          initializeEnvsAccess env { g with minioEndpoint := v } by
            simp [initializeEnvs, hEe, hv]]
      exact hacc _ (by simpa using hA) (by simpa using hS)
  · rw [show initializeEnvs env g = initializeEnvsAccess env g by
      simp [initializeEnvs, hEe]]
    exact hacc _ hA hS

theorem getClient_err_of_snd (env : List (String × String)) (g : ClientGlobals) (e : String)
    (hc : g.minioClient = none) (h : (initializeEnvs env g).2 = some e) :
    (getClient env g).client = .error e := by
  simp only [getClient, hc]
  rcases hi : initializeEnvs env g with ⟨g1, e1⟩
  rw [hi] at h
  simp only at h
  subst h
  rfl

theorem getAdminClient_err_of_snd (env : List (String × String)) (g : ClientGlobals) (e : String)
    (hc : g.minioAdminClient = none) (h : (initializeEnvs env g).2 = some e) :
    (getAdminClient env g).client = .error e := by
  simp only [getAdminClient, hc]
  rcases hi : initializeEnvs env g with ⟨g1, e1⟩
  rw [hi] at h
  simp only at h
  subst h
  rfl

theorem getClient_ok_of_snd (env : List (String × String)) (g : ClientGlobals)
    (hc : g.minioClient = none) (h : (initializeEnvs env g).2 = none) :
    ∃ c, (getClient env g).client = .ok c := by
  simp only [getClient, hc]
  rcases hi : initializeEnvs env g with ⟨g1, e1⟩
  rw [hi] at h
  simp only at h
  subst h
  exact ⟨_, rfl⟩

theorem getAdminClient_ok_of_snd (env : List (String × String)) (g : ClientGlobals)
    (hc : g.minioAdminClient = none) (h : (initializeEnvs env g).2 = none) :
    ∃ c, (getAdminClient env g).client = .ok c := by
  simp only [getAdminClient, hc]
  rcases hi : initializeEnvs env g with ⟨g1, e1⟩
  rw [hi] at h
  simp only at h
  subst h
  exact ⟨_, rfl⟩

/-! ## Claim theorems -/

/-- Claim C1 counterexample: the claim asserts that a Spec.Content and a
remote policy document parsing to the same JSON value but differing in
key order are not drift; in the code, equivalentPolicies only compacts
whitespace and compares bytes, so remote form with the keys reordered
is reported as drift and the Ready step moves the record to Updating. -/
theorem policy_keyorder_counterexample :
    equivalentPolicies "\x7b\"b\":2,\"a\":1\x7d" "\x7b \"a\":1 , \"b\":2 \x7d" = .ok false ∧
    (policyReconcile ⟨.ok (), none, .ok "\x7b\"b\":2,\"a\":1\x7d", none⟩
        ⟨"p", "ns", ⟨"p", "\x7b \"a\":1 , \"b\":2 \x7d"⟩, ⟨typeReady, ""⟩,
          [policyFinalizer], false⟩).cr.status.state = typeUpdating := ⟨rfl, rfl⟩

/-- Claim C1 (amended): the drift check compares the two documents
after compaction only, so formatting differences limited to whitespace
are not drift (the record stays Ready), while any byte difference after
compaction — in particular a different object key order — is drift and
moves the record to Updating; Content of a-then-b versus remote form
with the same order but different whitespace is no drift, versus the
reordered remote form is drift, and versus the single-key remote form
is drift. -/
theorem policy_drift_canonical :
    (∀ (remote content s : String),
       marshalRawMessage remote = some s → jsonCompact content = some s →
       equivalentPolicies remote content = .ok true) ∧
    (∀ (cr : Policy) (o : PolicyOracle) (raw : String),
       cr.status.state = typeReady → cr.markedForDeletion = false →
       o.adminClient = .ok () → o.infoPolicy = .ok raw →
       equivalentPolicies raw cr.spec.content = .ok true →
       (policyReconcile o cr).cr = cr ∧ (policyReconcile o cr).err = none) ∧
    (∀ (cr : Policy) (o : PolicyOracle) (raw : String),
       cr.status.state = typeReady → cr.markedForDeletion = false →
       o.adminClient = .ok () → o.infoPolicy = .ok raw →
       equivalentPolicies raw cr.spec.content = .ok false →
       (policyReconcile o cr).cr.status.state = typeUpdating) ∧
    equivalentPolicies "\x7b\"a\":1,\"b\":2\x7d" "\x7b \"a\":1 , \"b\":2 \x7d" = .ok true ∧
    equivalentPolicies "\x7b\"b\":2,\"a\":1\x7d" "\x7b \"a\":1 , \"b\":2 \x7d" = .ok false ∧
    equivalentPolicies "\x7b\"a\":1\x7d" "\x7b \"a\":1 , \"b\":2 \x7d" = .ok false := by
  refine ⟨?_, ?_, ?_, rfl, rfl, rfl⟩
  · intro remote content s h1 h2
    simp [equivalentPolicies, h1, h2]
  · intro cr o raw hstate hmark hclient hinfo heq
    simp only [policyReconcile, hstate, hmark, hclient, hinfo, heq,
      show (typeReady == "") = false from rfl,
      show (typeReady == typeCreating) = false from rfl,
      Bool.false_eq_true, if_false, if_true]
    exact ⟨rfl, rfl⟩
  · intro cr o raw hstate hmark hclient hinfo heq
    simp only [policyReconcile, hstate, hmark, hclient, hinfo, heq,
      show (typeReady == "") = false from rfl,
      show (typeReady == typeCreating) = false from rfl,
      Bool.false_eq_true, if_false, if_true]
    rfl

/-- Witness for C1: evaluates the whitespace-only pair and the Ready
step on it. -/
theorem policy_drift_canonical_witness :
    equivalentPolicies "\x7b\"a\":1,\"b\":2\x7d" "\x7b \"a\":1 , \"b\":2 \x7d" = .ok true ∧
    (policyReconcile (samplePolicyInfoOracle "\x7b\"a\":1,\"b\":2\x7d") sampleReadyPolicy).cr =
      sampleReadyPolicy := by
  refine ⟨policy_drift_canonical.1 "\x7b\"a\":1,\"b\":2\x7d" "\x7b \"a\":1 , \"b\":2 \x7d"
    "\x7b\"a\":1,\"b\":2\x7d" rfl rfl, ?_⟩
  exact (policy_drift_canonical.2.1 sampleReadyPolicy
    (samplePolicyInfoOracle "\x7b\"a\":1,\"b\":2\x7d") "\x7b\"a\":1,\"b\":2\x7d" rfl rfl rfl rfl rfl).1

/-- Claim C2: deleting a non-empty bucket with the empty-on-delete flag
disabled surfaces the error and keeps the finalizer (the record cannot
be erased); with the flag enabled the drain loop lists object versions
recursively, batch-deletes them with governance bypass, removal
succeeds, the state becomes Degraded and the finalizer is removed;
removing an already-absent bucket is success. -/
theorem bucket_deletion_drain_gated (cr : Bucket) (o : BucketOracle)
    (hstate : cr.status.state = typeReady)
    (hmark : cr.markedForDeletion = true)
    (hfin : cr.finalizers.contains bucketFinalizer = true)
    (hclient : o.client = .ok ()) :
    (o.remote.present = true → 0 < o.remote.objects →
       readEmptyBucketOnDelete o.env = .ok false →
       (bucketReconcile o cr).err = some bucketNotEmptyMsg ∧
       (bucketReconcile o cr).cr.finalizers.contains bucketFinalizer = true ∧
       erasable (bucketReconcile o cr).cr.finalizers = false) ∧
    (o.remote.present = true → 0 < o.remote.objects →
       readEmptyBucketOnDelete o.env = .ok true →
       (bucketReconcile o cr).err = none ∧
       (bucketReconcile o cr).cr.status.state = typeDegraded ∧
       (bucketReconcile o cr).cr.finalizers.contains bucketFinalizer = false ∧
       (bucketReconcile o cr).remote.present = false ∧
       (∀ c ∈ (bucketReconcile o cr).trace, drainCallFlagsOk c = true)) ∧
    (∀ ebd : Bool, o.remote.present = false →
       readEmptyBucketOnDelete o.env = .ok ebd →
       (bucketReconcile o cr).err = none ∧
       (bucketReconcile o cr).cr.status.state = typeDegraded ∧
       (bucketReconcile o cr).cr.finalizers.contains bucketFinalizer = false) := by
  have hred := bucketReconcile_deletion_eq cr o (by rw [hstate]; rfl) (by rw [hstate]; rfl)
    hmark hfin
  refine ⟨?_, ?_, ?_⟩
  · intro hp hn hebd
    rw [hclient] at hred
    rw [finOps_disabled o.env o.remote cr hp hn hebd] at hred
    rw [hred]
    refine ⟨rfl, hfin, ?_⟩
    simp only [setBucketErrorState, erasable]
    cases hl : cr.finalizers with
    | nil => rw [hl] at hfin; simp [List.contains] at hfin
    | cons a l => simp
  · intro hp hn hebd
    rw [hclient] at hred
    have hf := finOps_enabled o.env o.remote cr hp hebd
    rcases hfe : (finalizerOpsForBucket (.ok ()) o.env o.remote cr).err with _ | e
    · rw [hfe] at hred
      rw [hred]
      refine ⟨rfl, rfl, ?_, hf.2.1, ?_⟩
      · simp [removeFinalizer, List.contains_eq_any_beq, List.any_filter]
      · intro c hc
        exact hf.2.2.2 c hc
    · rw [hfe] at hf; simp at hf
  · intro ebd hp hebd
    rw [hclient] at hred
    rw [finOps_absent o.env o.remote cr ebd hp hebd] at hred
    rw [hred]
    refine ⟨rfl, rfl, ?_⟩
    simp [removeFinalizer, List.contains_eq_any_beq, List.any_filter]

/-- Witness for C2: a present bucket holding three object versions is
drained and removed with the flag enabled. -/
theorem bucket_deletion_drain_gated_witness :
    (bucketReconcile sampleDrainOracle sampleDeletedBucket).err = none ∧
    (bucketReconcile sampleDrainOracle sampleDeletedBucket).cr.status.state = typeDegraded ∧
    (bucketReconcile sampleDrainOracle sampleDeletedBucket).cr.finalizers.contains
      bucketFinalizer = false ∧
    (bucketReconcile sampleDrainOracle sampleDeletedBucket).remote.present = false := by
  have h := (bucket_deletion_drain_gated sampleDeletedBucket sampleDrainOracle
    rfl rfl rfl rfl).2.1 rfl (by decide) rfl
  exact ⟨h.1, h.2.1, h.2.2.1, h.2.2.2.1⟩

/-- Claim C3: running the Creating step on a bucket, policy or user
whose remote resource already exists does not produce the Error state:
the already-exists response is absorbed, the finalizer is registered
and the state becomes Ready with an immediate requeue. -/
theorem creating_already_exists_progresses :
    (∀ (cr : Bucket) (o : BucketOracle) (e : String),
       cr.status.state = typeCreating →
       o.client = .ok () →
       o.makeBucket = some e →
       strContains e bucketAlreadyOwnedMsg = true →
       (cr.spec.quota = 0 ∨ o.setQuota = none) →
       (bucketReconcile o cr).cr.status.state = typeReady ∧
       (bucketReconcile o cr).cr.status.state ≠ typeError ∧
       (bucketReconcile o cr).cr.finalizers.contains bucketFinalizer = true ∧
       (bucketReconcile o cr).err = none ∧
       (bucketReconcile o cr).result.requeue = true) ∧
    (∀ (cr : Policy) (o : PolicyOracle) (raw m : String),
       cr.status.state = typeCreating →
       o.adminClient = .ok () →
       o.addPolicy = none →
       o.infoPolicy = .ok raw →
       marshalRawMessage raw = some m →
       (policyReconcile o cr).cr.status.state = typeReady ∧
       (policyReconcile o cr).cr.status.state ≠ typeError ∧
       (policyReconcile o cr).cr.finalizers.contains policyFinalizer = true ∧
       (policyReconcile o cr).err = none ∧
       (policyReconcile o cr).result.requeue = true) ∧
    (∀ (cr : User) (o : UserOracle),
       cr.status.state = typeCreating →
       o.adminClient = .ok () →
       o.setUser = none →
       (match o.attachCreating with
        | none => True
        | some e => strContains e noNetEffectMsg = true) →
       (userReconcile o cr).cr.status.state = typeReady ∧
       (userReconcile o cr).cr.status.state ≠ typeError ∧
       (userReconcile o cr).cr.finalizers.contains userFinalizer = true ∧
       (userReconcile o cr).err = none ∧
       (userReconcile o cr).result.requeue = true) := by
  refine ⟨?_, ?_, ?_⟩
  · intro cr o e hstate hclient hmb habs hq
    simp only [bucketReconcile, hstate, hclient, hmb,
      show (typeCreating == "") = false from rfl,
      show (typeCreating == typeCreating) = true from rfl, habs]
    simp only [bucketCreateRest]
    have hqe : (if cr.spec.quota ≠ 0 then o.setQuota else none) = none := by
      rcases hq with h | h
      · simp [h]
      · by_cases h0 : cr.spec.quota = 0 <;> simp [h, h0]
    rw [hqe]
    refine ⟨rfl, by simp [typeReady, typeError], contains_addFinalizer _ _, rfl, rfl⟩
  · intro cr o raw m hstate hclient hadd hinfo hm
    simp only [policyReconcile, hstate, hclient, hadd,
      show (typeCreating == "") = false from rfl,
      show (typeCreating == typeCreating) = true from rfl]
    simp only [policyWriteBack, hinfo, hm]
    refine ⟨rfl, by simp [typeReady, typeError], contains_addFinalizer _ _, rfl, rfl⟩
  · intro cr o hstate hclient hsu hattach
    simp only [userReconcile, hstate, hclient, hsu,
      show (typeCreating == "") = false from rfl,
      show (typeCreating == typeCreating) = true from rfl]
    simp only [userCreateRest]
    by_cases hc : (cr.spec.accountStatus == "enabled" &&
        decide (cr.spec.policies.length > 0)) = true
    · rw [if_pos hc]
      rcases ha : o.attachCreating with _ | e
      · simp only [ha]
        exact ⟨rfl, by simp [typeReady, typeError], contains_addFinalizer _ _, rfl, rfl⟩
      · rw [ha] at hattach
        simp only at hattach
        simp only [ha, hattach, if_true]
        exact ⟨rfl, by simp [typeReady, typeError], contains_addFinalizer _ _, rfl, rfl⟩
    · rw [if_neg hc]
      exact ⟨rfl, by simp [typeReady, typeError], contains_addFinalizer _ _, rfl, rfl⟩

/-- Witness for C3: the three Creating steps on already-existing remote
resources, each reaching Ready. -/
theorem creating_already_exists_progresses_witness :
    (bucketReconcile sampleCreatingBucketOracle sampleCreatingBucket).cr.status.state
      = typeReady ∧
    (policyReconcile sampleCreatingPolicyOracle sampleCreatingPolicy).cr.status.state
      = typeReady ∧
    (userReconcile sampleCreatingUserOracle sampleCreatingUser).cr.status.state
      = typeReady := by
  refine ⟨(creating_already_exists_progresses.1 sampleCreatingBucket
      sampleCreatingBucketOracle bucketAlreadyOwnedMsg rfl rfl rfl rfl (Or.inr rfl)).1,
    (creating_already_exists_progresses.2.1 sampleCreatingPolicy sampleCreatingPolicyOracle
      "\x7b\"a\":1\x7d" "\x7b\"a\":1\x7d" rfl rfl rfl rfl rfl).1,
    (creating_already_exists_progresses.2.2 sampleCreatingUser
      sampleCreatingUserOracle rfl rfl rfl rfl).1⟩

/-- Claim C4: arrayDifference, called in the user Ready step with
desired Spec.Policies against the remotely attached list, returns as
first component the elements of the second argument missing from the
first (toDetach) and as second component the elements of the first
argument absent from the second (toAttach), excluding empty strings
from both; on the readonly/diagnostics example it yields writeonly to
detach and readonly to attach, and the Ready step issues exactly those
two requests. -/
theorem arrayDifference_diff :
    (∀ (a b : List String) (x : String),
       (x ∈ (arrayDifference a b).1 ↔ x ∈ b ∧ x ∉ a ∧ x ≠ "") ∧
       (x ∈ (arrayDifference a b).2 ↔ x ∈ a ∧ x ∉ b ∧ x ≠ "")) ∧
    arrayDifference ["readonly", "diagnostics"] ["diagnostics", "writeonly"] =
      (["writeonly"], ["readonly"]) ∧
    (userReconcile
        ⟨.ok (), none, none, .ok "diagnostics,writeonly", none, none, none⟩
        ⟨"u", "ns", ⟨"ak", "sk", ["readonly", "diagnostics"], "enabled"⟩,
          ⟨typeReady, ""⟩, [userFinalizer], false⟩).assoc =
      [.detach ["writeonly"], .attach ["readonly"]] := by
  refine ⟨?_, rfl, rfl⟩
  intro a b x
  constructor
  · simp [arrayDifference, List.mem_filter, and_assoc]
  · simp [arrayDifference, List.mem_filter, and_assoc]

/-- Claim C5 (code bug): the source guards each getter with a nil check
of the package-level cache variable, but assigns the constructed client
with a short variable declaration that shadows it, so the cache is
never filled: after a successful first call the cache is still nil and
every later call performs a fresh construction, for both the data-plane
and the admin client. -/
theorem getClient_never_memoizes :
    (getClient allSetEnv initialGlobals).client =
      .ok (minioNew "localhost:9000" "minioadmin" "minioadmin" false) ∧
    (getClient allSetEnv initialGlobals).constructed = true ∧
    (getClient allSetEnv initialGlobals).globals.minioClient = none ∧
    (getClient allSetEnv (getClient allSetEnv initialGlobals).globals).constructed = true ∧
    (getAdminClient allSetEnv initialGlobals).constructed = true ∧
    (getAdminClient allSetEnv initialGlobals).globals.minioAdminClient = none ∧
    (getAdminClient allSetEnv
      (getAdminClient allSetEnv initialGlobals).globals).constructed = true :=
  ⟨rfl, rfl, rfl, rfl, rfl, rfl, rfl⟩

/-- Claim C6 counterexample: with all three required values present but
MINIO_USE_SSL set to an unparsable value, construction does not
proceed — both getters fail — contradicting the claim that presence of
the three values suffices. -/
theorem getClient_ssl_unparsable_counterexample :
    (getClient [(envEndpoint, "localhost:9000"), (envAccessKeyID, "ak"),
        (envSecretAccessKey, "sk"), (envUseSSL, "maybe")] initialGlobals).client =
      .error (envUseSSL ++ " must be either true or false") ∧
    (getAdminClient [(envEndpoint, "localhost:9000"), (envAccessKeyID, "ak"),
        (envSecretAccessKey, "sk"), (envUseSSL, "maybe")] initialGlobals).client =
      .error (envUseSSL ++ " must be either true or false") := ⟨rfl, rfl⟩

/-- Claim C6 (amended): with no cached client, if any of the three
required values is unset and uncached both getters fail naming that
value, so every reconcile needing a client fails: the Creating, Ready
and Updating steps of all three kinds and the bucket and policy
deletion steps capture the provider error into the Error state and
return it, and the user deletion step makes no progress (record
untouched, finalizer kept) and requeues immediately; when the three
are available, construction proceeds provided MINIO_USE_SSL is absent
(the SSL flag then keeps its false default) or parses as a boolean — a
present but unparsable MINIO_USE_SSL is an error. -/
theorem client_config_required :
    (∀ (env : List (String × String)) (g : ClientGlobals),
       g.minioClient = none → g.minioAdminClient = none →
       ((g.minioEndpoint = "" ∧ lookupEnv env envEndpoint = none) ∨
        (g.accessKeyID = "" ∧ lookupEnv env envAccessKeyID = none) ∨
        (g.secretAccessKey = "" ∧ lookupEnv env envSecretAccessKey = none)) →
       ∃ v, (v = envEndpoint ∨ v = envAccessKeyID ∨ v = envSecretAccessKey) ∧
         (getClient env g).client = .error (v ++ " must be set") ∧
         (getAdminClient env g).client = .error (v ++ " must be set")) ∧
    (∀ (cr : Bucket) (o : BucketOracle) (e : String),
       o.client = .error e → o.adminClient = .error e → o.setQuota = some e →
       (cr.status.state = typeCreating →
          (bucketReconcile o cr).cr.status.state = typeError ∧
          (bucketReconcile o cr).err = some e) ∧
       (cr.status.state = typeReady → cr.markedForDeletion = false →
          (bucketReconcile o cr).cr.status.state = typeError ∧
          (bucketReconcile o cr).err = some e) ∧
       (cr.status.state = typeUpdating → cr.markedForDeletion = false →
          (bucketReconcile o cr).cr.status.state = typeError ∧
          (bucketReconcile o cr).err = some e) ∧
       (cr.status.state ≠ "" → cr.status.state ≠ typeCreating →
        cr.markedForDeletion = true →
        cr.finalizers.contains bucketFinalizer = true →
          (bucketReconcile o cr).cr.status.state = typeError ∧
          (bucketReconcile o cr).err = some e)) ∧
    (∀ (cr : Policy) (o : PolicyOracle) (e : String),
       o.adminClient = .error e →
       (cr.status.state = typeCreating →
          (policyReconcile o cr).cr.status.state = typeError ∧
          (policyReconcile o cr).err = some e) ∧
       (cr.status.state = typeReady → cr.markedForDeletion = false →
          (policyReconcile o cr).cr.status.state = typeError ∧
          (policyReconcile o cr).err = some e) ∧
       (cr.status.state = typeUpdating → cr.markedForDeletion = false →
          (policyReconcile o cr).cr.status.state = typeError ∧
          (policyReconcile o cr).err = some e) ∧
       (cr.status.state ≠ "" → cr.status.state ≠ typeCreating →
        cr.markedForDeletion = true →
        cr.finalizers.contains policyFinalizer = true →
          (policyReconcile o cr).cr.status.state = typeError ∧
          (policyReconcile o cr).err = some e)) ∧
    (∀ (cr : User) (o : UserOracle) (e : String),
       o.adminClient = .error e →
       (cr.status.state = typeCreating →
          (userReconcile o cr).cr.status.state = typeError ∧
          (userReconcile o cr).err = some e) ∧
       (cr.status.state = typeReady → cr.markedForDeletion = false →
          (userReconcile o cr).cr.status.state = typeError ∧
          (userReconcile o cr).err = some e) ∧
       (cr.status.state ≠ "" → cr.status.state ≠ typeCreating →
        cr.markedForDeletion = true →
        cr.finalizers.contains userFinalizer = true →
          (userReconcile o cr).cr = cr ∧
          (userReconcile o cr).result.requeue = true ∧
          (userReconcile o cr).err = none)) ∧
    (∀ (env : List (String × String)) (g : ClientGlobals),
       g.minioClient = none → g.minioAdminClient = none →
       ¬(g.minioEndpoint = "" ∧ lookupEnv env envEndpoint = none) →
       ¬(g.accessKeyID = "" ∧ lookupEnv env envAccessKeyID = none) →
       ¬(g.secretAccessKey = "" ∧ lookupEnv env envSecretAccessKey = none) →
       (lookupEnv env envUseSSL = none ∨
         ∃ s b, lookupEnv env envUseSSL = some s ∧ parseBool s = some b) →
       (∃ c, (getClient env g).client = .ok c) ∧
       (∃ c, (getAdminClient env g).client = .ok c)) ∧
    (∀ (env : List (String × String)) (eV aV sV : String),
       lookupEnv env envEndpoint = some eV →
       lookupEnv env envAccessKeyID = some aV →
       lookupEnv env envSecretAccessKey = some sV →
       lookupEnv env envUseSSL = none →
       (getClient env initialGlobals).client = .ok (minioNew eV aV sV false) ∧
       (getAdminClient env initialGlobals).client = .ok (madminNew eV aV sV false)) := by
  refine ⟨?_, ?_, ?_, ?_, ?_, ?_⟩
  · intro env g hc hac hmiss
    by_cases hE : g.minioEndpoint = "" ∧ lookupEnv env envEndpoint = none
    · refine ⟨envEndpoint, Or.inl rfl, ?_, ?_⟩
      · exact getClient_err_of_snd env g _ hc
          (by rw [initializeEnvs_snd_endpoint env g hE.1 hE.2])
      · exact getAdminClient_err_of_snd env g _ hac
          (by rw [initializeEnvs_snd_endpoint env g hE.1 hE.2])
    · by_cases hA : g.accessKeyID = "" ∧ lookupEnv env envAccessKeyID = none
      · refine ⟨envAccessKeyID, Or.inr (Or.inl rfl), ?_, ?_⟩
        · exact getClient_err_of_snd env g _ hc (initializeEnvs_snd_access env g hE hA.1 hA.2)
        · exact getAdminClient_err_of_snd env g _ hac
            (initializeEnvs_snd_access env g hE hA.1 hA.2)
      · have hS : g.secretAccessKey = "" ∧ lookupEnv env envSecretAccessKey = none := by
          rcases hmiss with h | h | h
          · exact absurd h hE
          · exact absurd h hA
          · exact h
        refine ⟨envSecretAccessKey, Or.inr (Or.inr rfl), ?_, ?_⟩
        · exact getClient_err_of_snd env g _ hc
            (initializeEnvs_snd_secret env g hE hA hS.1 hS.2)
        · exact getAdminClient_err_of_snd env g _ hac
            (initializeEnvs_snd_secret env g hE hA hS.1 hS.2)
  · intro cr o e hclient hadmin hsq
    refine ⟨?_, ?_, ?_, ?_⟩
    · intro hstate
      simp only [bucketReconcile, hstate, hclient,
        show (typeCreating == "") = false from rfl,
        show (typeCreating == typeCreating) = true from rfl,
        Bool.false_eq_true, if_false, if_true]
      constructor <;> trivial
    · intro hstate hmark
      simp only [bucketReconcile, hstate, hmark, hadmin,
        show (typeReady == "") = false from rfl,
        show (typeReady == typeCreating) = false from rfl,
        show (typeReady == typeReady) = true from rfl,
        Bool.false_eq_true, if_false, if_true]
      constructor <;> trivial
    · intro hstate hmark
      simp only [bucketReconcile, hstate, hmark, hsq,
        show (typeUpdating == "") = false from rfl,
        show (typeUpdating == typeCreating) = false from rfl,
        show (typeUpdating == typeReady) = false from rfl,
        show (typeUpdating == typeUpdating) = true from rfl,
        Bool.false_eq_true, if_false, if_true]
      constructor <;> trivial
    · intro hs1 hs2 hmark hfin
      have hred := bucketReconcile_deletion_eq cr o (by simp [hs1]) (by simp [hs2])
        hmark hfin
      rw [hclient] at hred
      rw [show finalizerOpsForBucket (Except.error e) o.env o.remote cr =
        ⟨some e, o.remote, [], []⟩ from rfl] at hred
      rw [hred]
      exact ⟨rfl, rfl⟩
  · intro cr o e hadmin
    refine ⟨?_, ?_, ?_, ?_⟩
    · intro hstate
      simp only [policyReconcile, hstate, hadmin,
        show (typeCreating == "") = false from rfl,
        show (typeCreating == typeCreating) = true from rfl,
        Bool.false_eq_true, if_false, if_true]
      constructor <;> trivial
    · intro hstate hmark
      simp only [policyReconcile, hstate, hmark, hadmin,
        show (typeReady == "") = false from rfl,
        show (typeReady == typeCreating) = false from rfl,
        show (typeReady == typeReady) = true from rfl,
        Bool.false_eq_true, if_false, if_true]
      constructor <;> trivial
    · intro hstate hmark
      simp only [policyReconcile, hstate, hmark, hadmin,
        show (typeUpdating == "") = false from rfl,
        show (typeUpdating == typeCreating) = false from rfl,
        show (typeUpdating == typeReady) = false from rfl,
        show (typeUpdating == typeUpdating) = true from rfl,
        Bool.false_eq_true, if_false, if_true]
      constructor <;> trivial
    · intro hs1 hs2 hmark hfin
      have hb1 : (cr.status.state == "") = false := by simp [hs1]
      have hb2 : (cr.status.state == typeCreating) = false := by simp [hs2]
      simp only [policyReconcile, hb1, hb2, hmark, hfin,
        Bool.false_eq_true, if_false, if_true]
      have hops : finalizerOpsForPolicy o cr = .error e := by
        simp only [finalizerOpsForPolicy, hadmin]
      rw [hops]
      exact ⟨rfl, rfl⟩
  · intro cr o e hadmin
    refine ⟨?_, ?_, ?_⟩
    · intro hstate
      simp only [userReconcile, hstate, hadmin,
        show (typeCreating == "") = false from rfl,
        show (typeCreating == typeCreating) = true from rfl,
        Bool.false_eq_true, if_false, if_true]
      constructor <;> trivial
    · intro hstate hmark
      simp only [userReconcile, hstate, hmark, hadmin,
        show (typeReady == "") = false from rfl,
        show (typeReady == typeCreating) = false from rfl,
        show (typeReady == typeReady) = true from rfl,
        Bool.false_eq_true, if_false, if_true]
      constructor <;> trivial
    · intro hs1 hs2 hmark hfin
      have hb1 : (cr.status.state == "") = false := by simp [hs1]
      have hb2 : (cr.status.state == typeCreating) = false := by simp [hs2]
      simp only [userReconcile, hb1, hb2, hmark, hfin,
        Bool.false_eq_true, if_false, if_true]
      have hops : finalizerOpsForUser o cr = .error e := by
        simp only [finalizerOpsForUser, hadmin]
      rw [hops]
      exact ⟨rfl, rfl, rfl⟩
  · intro env g hc hac hE hA hS hSSL
    exact ⟨getClient_ok_of_snd env g hc (initializeEnvs_snd_ok env g hE hA hS hSSL),
      getAdminClient_ok_of_snd env g hac (initializeEnvs_snd_ok env g hE hA hS hSSL)⟩
  · intro env eV aV sV hE hA hS hSSL
    constructor
    · simp [getClient, initialGlobals, initializeEnvs, initializeEnvsAccess,
        initializeEnvsSecret, initializeEnvsSSL, hE, hA, hS, hSSL, minioNew]
    · simp [getAdminClient, initialGlobals, initializeEnvs, initializeEnvsAccess,
        initializeEnvsSecret, initializeEnvsSSL, hE, hA, hS, hSSL, madminNew]

/-- Witness for C6: an environment missing MINIO_ACCESS_KEY_ID makes
both getters fail naming a required variable; a bucket Creating step
with that provider error reaches Error, and a user deletion step with
it makes no progress and requeues. -/
theorem client_config_required_witness :
    (∃ v, (v = envEndpoint ∨ v = envAccessKeyID ∨ v = envSecretAccessKey) ∧
      (getClient missingAccessEnv initialGlobals).client = .error (v ++ " must be set") ∧
      (getAdminClient missingAccessEnv initialGlobals).client =
        .error (v ++ " must be set")) ∧
    (bucketReconcile clientFailBucketOracle sampleCreatingBucket).cr.status.state
      = typeError ∧
    (userReconcile adminFailUserOracle sampleDeletedUser).cr = sampleDeletedUser ∧
    (userReconcile adminFailUserOracle sampleDeletedUser).result.requeue = true := by
  refine ⟨client_config_required.1 missingAccessEnv initialGlobals rfl rfl
    (Or.inr (Or.inl ⟨rfl, rfl⟩)), ?_, ?_, ?_⟩
  · exact ((client_config_required.2.1 sampleCreatingBucket clientFailBucketOracle
      clientFailMsg rfl rfl rfl).1 rfl).1
  · exact ((client_config_required.2.2.2.1 sampleDeletedUser adminFailUserOracle
      clientFailMsg rfl).2.2 (by decide) (by decide) rfl rfl).1
  · exact ((client_config_required.2.2.2.1 sampleDeletedUser adminFailUserOracle
      clientFailMsg rfl).2.2 (by decide) (by decide) rfl rfl).2.1

/-- Claim C7 counterexample: a policy deletion whose remote removal
reports the policy as absent is not absorbed: the record moves to
Error, the finalizer stays, the error is returned and no deletion event
is emitted, contradicting the claim that absence is treated as
success. -/
theorem policy_deletion_absent_counterexample :
    (policyReconcile
        ⟨.ok (), none, .ok "\x7b\x7d", some "The canned policy does not exist."⟩
        ⟨"p", "ns", ⟨"p", "\x7b\x7d"⟩, ⟨typeReady, ""⟩, [policyFinalizer], true⟩).cr.status.state
        = typeError ∧
    (policyReconcile
        ⟨.ok (), none, .ok "\x7b\x7d", some "The canned policy does not exist."⟩
        ⟨"p", "ns", ⟨"p", "\x7b\x7d"⟩, ⟨typeReady, ""⟩, [policyFinalizer], true⟩).cr.finalizers
        = [policyFinalizer] ∧
    (policyReconcile
        ⟨.ok (), none, .ok "\x7b\x7d", some "The canned policy does not exist."⟩
        ⟨"p", "ns", ⟨"p", "\x7b\x7d"⟩, ⟨typeReady, ""⟩, [policyFinalizer], true⟩).err
        = some "The canned policy does not exist." ∧
    (policyReconcile
        ⟨.ok (), none, .ok "\x7b\x7d", some "The canned policy does not exist."⟩
        ⟨"p", "ns", ⟨"p", "\x7b\x7d"⟩, ⟨typeReady, ""⟩, [policyFinalizer], true⟩).events
        = [] := ⟨rfl, rfl, rfl, rfl⟩

/-- Claim C7 (amended): the policy deletion step surfaces every remote
removal error — including a not-found response for an already-absent
policy — as the Error state with the message recorded and the finalizer
retained; only a successful removal sets Degraded, removes the
finalizer and emits the deletion event. -/
theorem policy_deletion_surfaces_errors :
    (∀ (cr : Policy) (o : PolicyOracle) (e : String),
       cr.status.state ≠ "" → cr.status.state ≠ typeCreating →
       cr.markedForDeletion = true →
       cr.finalizers.contains policyFinalizer = true →
       o.adminClient = .ok () → o.removePolicy = some e →
       (policyReconcile o cr).cr.status.state = typeError ∧
       (policyReconcile o cr).cr.status.message = e ∧
       (policyReconcile o cr).cr.finalizers.contains policyFinalizer = true ∧
       (policyReconcile o cr).err = some e ∧
       (policyReconcile o cr).events = []) ∧
    (∀ (cr : Policy) (o : PolicyOracle),
       cr.status.state ≠ "" → cr.status.state ≠ typeCreating →
       cr.markedForDeletion = true →
       cr.finalizers.contains policyFinalizer = true →
       o.adminClient = .ok () → o.removePolicy = none →
       (policyReconcile o cr).cr.status.state = typeDegraded ∧
       (policyReconcile o cr).cr.finalizers.contains policyFinalizer = false ∧
       (policyReconcile o cr).err = none ∧
       (policyReconcile o cr).events = [deletingEvent cr.name cr.nspace]) := by
  constructor
  · intro cr o e hs1 hs2 hmark hfin hclient hrm
    have hb1 : (cr.status.state == "") = false := by simp [hs1]
    have hb2 : (cr.status.state == typeCreating) = false := by simp [hs2]
    simp only [policyReconcile, hb1, hb2, hmark, hfin, Bool.false_eq_true, if_false, if_true]
    have hops : finalizerOpsForPolicy o cr = .error e := by
      simp only [finalizerOpsForPolicy, hclient, hrm]
    rw [hops]
    exact ⟨rfl, rfl, hfin, rfl, rfl⟩
  · intro cr o hs1 hs2 hmark hfin hclient hrm
    have hb1 : (cr.status.state == "") = false := by simp [hs1]
    have hb2 : (cr.status.state == typeCreating) = false := by simp [hs2]
    simp only [policyReconcile, hb1, hb2, hmark, hfin, Bool.false_eq_true, if_false, if_true]
    have hops : finalizerOpsForPolicy o cr = .ok [deletingEvent cr.name cr.nspace] := by
      simp only [finalizerOpsForPolicy, hclient, hrm]
    rw [hops]
    refine ⟨rfl, ?_, rfl, rfl⟩
    simp [removeFinalizer, List.contains_eq_any_beq, List.any_filter]

/-- Witness for C7: a failing removal leaves Error with the error
returned. -/
theorem policy_deletion_surfaces_errors_witness :
    (policyReconcile samplePolicyRemoveFailOracle sampleDeletedPolicy).cr.status.state
      = typeError ∧
    (policyReconcile samplePolicyRemoveFailOracle sampleDeletedPolicy).err =
      some "The canned policy does not exist." := by
  have h := policy_deletion_surfaces_errors.1 sampleDeletedPolicy
    samplePolicyRemoveFailOracle "The canned policy does not exist."
    (by decide) (by decide) rfl rfl rfl rfl
  exact ⟨h.1, h.2.2.2.1⟩

/-- Claim C8 counterexample: a bucket record in Error with a non-empty
message, marked for deletion, whose remote bucket is already absent, is
moved to Degraded with the old message retained — so Status.Message is
non-empty while the state is not Error, and the transition out of Error
did not clear it. -/
theorem error_message_survives_deletion_counterexample :
    (bucketReconcile
        ⟨[], .ok (), .ok (), none, none, .ok 0, ⟨false, 0⟩⟩
        ⟨"b", "ns", ⟨"mybucket", 0⟩, ⟨typeError, "quota write failed"⟩,
          [bucketFinalizer], true⟩).cr.status
      = ⟨typeDegraded, "quota write failed"⟩ := rfl

/-- Claim C8 (amended): each error helper writes Status.Message exactly
when it sets State to Error, and no reconcile path of any kind writes
Status.Message otherwise — in particular no transition clears it, so a
deletion that succeeds on a record in Error yields Degraded with the
old message retained. -/
theorem error_state_message_discipline :
    (∀ (cr : Bucket) (e : String),
       (setBucketErrorState cr e).status.state = typeError ∧
       (setBucketErrorState cr e).status.message = e) ∧
    (∀ (cr : Policy) (e : String),
       (setPolicyErrorState cr e).status.state = typeError ∧
       (setPolicyErrorState cr e).status.message = e) ∧
    (∀ (cr : User) (e : String),
       (setUserErrorState cr e).status.state = typeError ∧
       (setUserErrorState cr e).status.message = e) ∧
    (∀ (o : BucketOracle) (cr : Bucket),
       (bucketReconcile o cr).cr.status.message = cr.status.message ∨
       (bucketReconcile o cr).cr.status.state = typeError) ∧
    (∀ (o : PolicyOracle) (cr : Policy),
       (policyReconcile o cr).cr.status.message = cr.status.message ∨
       (policyReconcile o cr).cr.status.state = typeError) ∧
    (∀ (o : UserOracle) (cr : User),
       (userReconcile o cr).cr.status.message = cr.status.message ∨
       (userReconcile o cr).cr.status.state = typeError) ∧
    (∀ (cr : Bucket) (o : BucketOracle) (ebd : Bool),
       cr.status.state = typeError → cr.markedForDeletion = true →
       cr.finalizers.contains bucketFinalizer = true →
       o.client = .ok () → o.remote.present = false →
       readEmptyBucketOnDelete o.env = .ok ebd →
       (bucketReconcile o cr).cr.status.state = typeDegraded ∧
       (bucketReconcile o cr).cr.status.message = cr.status.message) := by
  refine ⟨fun cr e => ⟨rfl, rfl⟩, fun cr e => ⟨rfl, rfl⟩, fun cr e => ⟨rfl, rfl⟩,
    bucketReconcile_message_invariant, policyReconcile_message_invariant,
    userReconcile_message_invariant, ?_⟩
  intro cr o ebd hstate hmark hfin hclient hp hebd
  have hred := bucketReconcile_deletion_eq cr o (by rw [hstate]; rfl) (by rw [hstate]; rfl)
    hmark hfin
  rw [hclient] at hred
  rw [finOps_absent o.env o.remote cr ebd hp hebd] at hred
  rw [hred]
  exact ⟨rfl, rfl⟩

/-- Witness for C8: the concrete Error record of the counterexample,
driven through the deletion step via the theorem. -/
theorem error_state_message_discipline_witness :
    (bucketReconcile sampleAbsentRemoteOracle sampleErrorBucket).cr.status.state
      = typeDegraded ∧
    (bucketReconcile sampleAbsentRemoteOracle sampleErrorBucket).cr.status.message
      = "quota write failed" := by
  have h := error_state_message_discipline.2.2.2.2.2.2 sampleErrorBucket
    sampleAbsentRemoteOracle false rfl rfl rfl rfl rfl rfl
  exact ⟨h.1, h.2⟩

/-- Claim C9: in the bucket Ready step a failed remote quota read is
only logged, the zero-valued result is compared against Spec.Quota, and
for a bucket with positive Spec.Quota the record therefore moves to
Updating, not Error, with no error returned. -/
theorem bucket_quota_read_failure_updating (cr : Bucket) (o : BucketOracle) (e : String)
    (hstate : cr.status.state = typeReady)
    (hmark : cr.markedForDeletion = false)
    (hadmin : o.adminClient = .ok ())
    (hquota : o.getQuota = .error e)
    (hq : 0 < cr.spec.quota) :
    (bucketReconcile o cr).cr.status.state = typeUpdating ∧
    (bucketReconcile o cr).cr.status.state ≠ typeError ∧
    (bucketReconcile o cr).err = none := by
  simp only [bucketReconcile, hstate, hmark, hadmin, hquota,
    show (typeReady == "") = false from rfl,
    show (typeReady == typeCreating) = false from rfl,
    show (typeReady == typeReady) = true from rfl]
  simp only [Bool.false_eq_true, if_false, if_true]
  rw [if_pos (by omega)]
  exact ⟨rfl, by simp [typeUpdating, typeError], rfl⟩

/-- Witness for C9: a quota read failing with a connection error on a
bucket with Spec.Quota seven moves the record to Updating. -/
theorem bucket_quota_read_failure_updating_witness :
    (bucketReconcile sampleQuotaFailOracle sampleReadyBucket).cr.status.state
      = typeUpdating :=
  (bucket_quota_read_failure_updating sampleReadyBucket sampleQuotaFailOracle
    "connection refused" rfl rfl rfl rfl (by decide)).1

/-- Claim C10: when remote user removal fails during deletion with an
error other than not-found, the user reconciler leaves the record
entirely unchanged (no Error state, no message, finalizer kept) and
returns a requeue-immediately signal with no error, whereas the bucket
and policy reconcilers move to Error with the message recorded when
their deletion-path remote removal fails. -/
theorem user_deletion_failure_requeues :
    (∀ (cr : User) (o : UserOracle) (e : String),
       cr.status.state ≠ "" → cr.status.state ≠ typeCreating →
       cr.markedForDeletion = true →
       cr.finalizers.contains userFinalizer = true →
       o.adminClient = .ok () →
       o.removeUser = some e →
       strContains e "does not exist" = false →
       (userReconcile o cr).cr = cr ∧
       (userReconcile o cr).result.requeue = true ∧
       (userReconcile o cr).err = none) ∧
    (∀ (cr : Bucket) (o : BucketOracle),
       cr.status.state = typeReady → cr.markedForDeletion = true →
       cr.finalizers.contains bucketFinalizer = true →
       o.client = .ok () → o.remote.present = true → 0 < o.remote.objects →
       readEmptyBucketOnDelete o.env = .ok false →
       (bucketReconcile o cr).cr.status.state = typeError ∧
       (bucketReconcile o cr).cr.status.message = bucketNotEmptyMsg ∧
       (bucketReconcile o cr).err = some bucketNotEmptyMsg) ∧
    (∀ (cr : Policy) (o : PolicyOracle) (e : String),
       cr.status.state = typeReady → cr.markedForDeletion = true →
       cr.finalizers.contains policyFinalizer = true →
       o.adminClient = .ok () → o.removePolicy = some e →
       (policyReconcile o cr).cr.status.state = typeError ∧
       (policyReconcile o cr).cr.status.message = e ∧
       (policyReconcile o cr).err = some e) := by
  refine ⟨?_, ?_, ?_⟩
  · intro cr o e hs1 hs2 hmark hfin hclient hrm hnf
    have hb1 : (cr.status.state == "") = false := by
      simp [hs1]
    have hb2 : (cr.status.state == typeCreating) = false := by
      simp [hs2]
    simp only [userReconcile, hb1, hb2, hmark, hfin, Bool.false_eq_true, if_false, if_true]
    have hops : finalizerOpsForUser o cr = .error e := by
      simp only [finalizerOpsForUser, hclient, hrm, hnf, Bool.false_eq_true, if_false]
    rw [hops]
    exact ⟨rfl, rfl, rfl⟩
  · intro cr o hstate hmark hfin hclient hp hn hebd
    have hred := bucketReconcile_deletion_eq cr o (by rw [hstate]; rfl) (by rw [hstate]; rfl)
      hmark hfin
    rw [hclient] at hred
    rw [finOps_disabled o.env o.remote cr hp hn hebd] at hred
    rw [hred]
    exact ⟨rfl, rfl, rfl⟩
  · intro cr o e hstate hmark hfin hclient hrm
    simp only [policyReconcile, hstate, hmark, hfin,
      show (typeReady == "") = false from rfl,
      show (typeReady == typeCreating) = false from rfl, if_true]
    have hops : finalizerOpsForPolicy o cr = .error e := by
      simp only [finalizerOpsForPolicy, hclient, hrm]
    rw [hops]
    exact ⟨rfl, rfl, rfl⟩

/-- Witness for C10: a user removal failing with an access error leaves
the record untouched and requeues. -/
theorem user_deletion_failure_requeues_witness :
    (userReconcile sampleUserRemoveFailOracle sampleDeletedUser).cr = sampleDeletedUser ∧
    (userReconcile sampleUserRemoveFailOracle sampleDeletedUser).result.requeue = true ∧
    (userReconcile sampleUserRemoveFailOracle sampleDeletedUser).err = none :=
  user_deletion_failure_requeues.1 sampleDeletedUser sampleUserRemoveFailOracle
    "access denied" (by decide) (by decide) rfl rfl rfl rfl rfl

end MinioOperator
